import Mathlib

/-!
# Verification of the VictoryLine data-to-geometry pipeline

Shallow embedding of `src/components/victory-line/victory-line.jsx`
(plus the shared `Label` component) and proofs about it.

Conventions of the embedding:
* JS numbers are modelled as `Int`; a data point's `y` is `Option Int`
  (`none` models both `null` and `undefined`, which the code treats
  identically via `datum.y === null || typeof datum.y === "undefined"`).
* JS objects used as prop/style bags are modelled as `String → Option V`
  maps; a key whose value is `undefined` is modelled as the key being
  absent, which is observationally equivalent for every lookup the code
  performs.
* lodash `sortBy(dataset, "x")` is a stable ascending sort by the `x`
  field; it is modelled with `List.mergeSort`, which is stable.
* Code that can throw (property access on `undefined`) is modelled with
  `Except String`.
-/

/-- A normalized data point: `{x, y, label?}`.  `y = none` models a gap
(`null`/`undefined` y). -/
structure Point where
  x : Int
  y : Option Int
  label : Option String := none
deriving DecidableEq, Repr

/-- The gap test from `getDataSegments` / `renderMarkersAndLabels`:
`datum.y === null || typeof datum.y === "undefined"`. -/
def isGap (d : Point) : Bool := d.y.isNone

/-- lodash `sortBy(dataset, "x")`: stable ascending sort by the `x` field. -/
def sortByX (dataset : List Point) : List Point :=
  dataset.mergeSort (fun a b => a.x ≤ b.x)

/-- JS `Array.prototype.slice(a, b)` (for `0 ≤ a`, `0 ≤ b`): the elements
at positions `a .. b-1`. -/
def jsSlice (l : List α) (a b : Nat) : List α := (l.take b).drop a

/-- One step of the `orderedData.forEach` loop in `getDataSegments`
(lines 315-320): the accumulator is the pair
`(segments, segmentStartIndex)`; on a gap point the run
`orderedData.slice(segmentStartIndex, index)` is pushed and the start
index moves past the gap. -/
def segStep (orderedData : List Point) (acc : List (List Point) × Nat)
    (ip : Nat × Point) : List (List Point) × Nat :=
  if isGap ip.2 then (acc.1 ++ [jsSlice orderedData acc.2 ip.1], ip.1 + 1) else acc

/-- Embeds `getDataSegments(dataset)` (victory-line.jsx lines 311-325): sort by
`x`, scan splitting on gap points, push the final run, and keep only the
non-empty runs.  (The JS filter also tests `Array.isArray(segment)`,
which is true of every slice.) -/
def getDataSegments (dataset : List Point) : List (List Point) :=
  let orderedData := sortByX dataset
  let scan := orderedData.enum.foldl (segStep orderedData) ([], 0)
  let segments := scan.1 ++ [jsSlice orderedData scan.2 orderedData.length]
  segments.filter (fun segment => segment.length > 0)

/-- Specification-level splitter: `runsFrom cur l` closes the run `cur`
at each gap of `l` and opens a new one.  Used only as a proof-side
reformulation of the index/slice scan in `getDataSegments`. -/
def runsFrom (cur : List Point) : List Point → List (List Point)
  | [] => [cur]
  | p :: rest =>
      if isGap p then cur :: runsFrom [] rest else runsFrom (cur ++ [p]) rest

lemma jsSlice_self_of_ge (l : List α) (a i : Nat) (h : l.length ≤ i) :
    jsSlice l a l.length = jsSlice l a i := by
  unfold jsSlice
  rw [List.take_length, List.take_of_length_le h]

lemma jsSlice_empty (l : List α) (i : Nat) : jsSlice l i i = [] := by
  unfold jsSlice
  apply List.drop_eq_nil_of_le
  exact List.length_take_le i l

lemma jsSlice_snoc (l : List α) (start i : Nat) (p : α)
    (hd : l.drop i = p :: (l.drop (i + 1))) (hs : start ≤ i) :
    jsSlice l start (i + 1) = jsSlice l start i ++ [p] := by
  have hi : i < l.length := by
    by_contra hge
    rw [List.drop_eq_nil_of_le (Nat.le_of_not_lt hge)] at hd
    exact List.noConfusion hd
  have hget : l[i]? = some p := by
    have := List.head?_drop l i
    rw [hd] at this
    simpa using this.symm
  unfold jsSlice
  rw [List.take_succ, hget]
  simp only [Option.toList_some]
  rw [List.drop_append_of_le_length]
  rw [List.length_take]
  exact Nat.le_min.mpr ⟨hs, Nat.le_trans hs (Nat.le_of_lt hi)⟩

/-- Bridge between the faithful index/slice scan of `getDataSegments`
and the structural splitter `runsFrom`. -/
lemma segScan_eq (ordered : List Point) :
    ∀ (l₂ : List Point) (i start : Nat) (segs : List (List Point)),
      ordered.drop i = l₂ → start ≤ i →
      (let r := (List.enumFrom i l₂).foldl (segStep ordered) (segs, start)
       r.1 ++ [jsSlice ordered r.2 ordered.length])
        = segs ++ runsFrom (jsSlice ordered start i) l₂ := by
  intro l₂
  induction l₂ with
  | nil =>
      intro i start segs hd hs
      simp only [List.enumFrom, List.foldl_nil, runsFrom]
      have hlen : ordered.length ≤ i := by
        by_contra hlt
        have := List.drop_eq_nil_iff.mp hd
        omega
      rw [jsSlice_self_of_ge ordered start i hlen]
  | cons p rest ih =>
      intro i start segs hd hs
      simp only [List.enumFrom, List.foldl_cons]
      have hdrop : ordered.drop (i + 1) = rest := by
        have := congrArg List.tail hd
        rwa [List.tail_drop] at this
      by_cases hg : isGap p
      · rw [show segStep ordered (segs, start) (i, p)
              = (segs ++ [jsSlice ordered start i], i + 1) from by simp [segStep, hg]]
        have := ih (i + 1) (i + 1) (segs ++ [jsSlice ordered start i]) hdrop
          (Nat.le_refl _)
        simp only at this
        rw [this, jsSlice_empty]
        simp [runsFrom, hg]
      · rw [show segStep ordered (segs, start) (i, p) = (segs, start) from by
              simp [segStep, hg]]
        have := ih (i + 1) start segs hdrop (Nat.le_succ_of_le hs)
        simp only at this
        rw [this]
        have hsnoc : jsSlice ordered start (i + 1) = jsSlice ordered start i ++ [p] := by
          apply jsSlice_snoc ordered start i p _ hs
          rw [hd, hdrop]
        rw [hsnoc]
        simp [runsFrom, hg]

/-- The function `getDataSegments` equals the structural splitter followed by the
non-empty filter. -/
lemma getDataSegments_eq_runsFrom (dataset : List Point) :
    getDataSegments dataset
      = (runsFrom [] (sortByX dataset)).filter (fun segment => segment.length > 0) := by
  have h := segScan_eq (sortByX dataset) (sortByX dataset) 0 0 []
    (by simp) (Nat.le_refl 0)
  simp only [jsSlice_empty, List.nil_append] at h
  simp only [getDataSegments, List.enum]
  rw [h]

lemma runsFrom_flatten (l : List Point) :
    ∀ cur, (runsFrom cur l).flatten = cur ++ l.filter (fun p => !isGap p) := by
  induction l with
  | nil => intro cur; simp [runsFrom]
  | cons p rest ih =>
      intro cur
      by_cases hg : isGap p
      · simp [runsFrom, hg, ih, List.filter_cons]
      · simp [runsFrom, hg, ih [], ih (cur ++ [p]), List.filter_cons]

lemma flatten_filter_nonempty (L : List (List α)) :
    (L.filter (fun s => s.length > 0)).flatten = L.flatten := by
  induction L with
  | nil => rfl
  | cons s rest ih =>
      cases s with
      | nil => simpa using ih
      | cons a t => simpa using ih

lemma runsFrom_no_gap (l : List Point) :
    ∀ cur, (∀ p ∈ cur, isGap p = false) →
      ∀ s ∈ runsFrom cur l, ∀ p ∈ s, isGap p = false := by
  induction l with
  | nil =>
      intro cur hcur s hs p hp
      simp only [runsFrom, List.mem_singleton] at hs
      subst hs
      exact hcur p hp
  | cons q rest ih =>
      intro cur hcur s hs p hp
      by_cases hg : isGap q
      · simp only [runsFrom, hg, reduceIte, List.mem_cons] at hs
        rcases hs with h | h
        · exact (h ▸ hcur) p hp
        · exact ih [] (by simp) s h p hp
      · simp only [runsFrom, hg, reduceIte] at hs
        refine ih (cur ++ [q]) ?_ s hs p hp
        intro r hr
        rcases List.mem_append.mp hr with h | h
        · exact hcur r h
        · simp only [List.mem_singleton] at h
          subst h
          simpa using hg

/-- The concatenation of the segments is the gap-filtered sorted list. -/
lemma getDataSegments_flatten (dataset : List Point) :
    (getDataSegments dataset).flatten
      = (sortByX dataset).filter (fun p => !isGap p) := by
  rw [getDataSegments_eq_runsFrom, flatten_filter_nonempty, runsFrom_flatten]
  simp

lemma getDataSegments_nonempty (dataset : List Point) :
    ∀ s ∈ getDataSegments dataset, s ≠ [] := by
  intro s hs
  rw [getDataSegments_eq_runsFrom] at hs
  have := List.of_mem_filter hs
  simp only [decide_eq_true_eq] at this
  exact List.ne_nil_of_length_pos this

lemma getDataSegments_gap_free (dataset : List Point) :
    ∀ s ∈ getDataSegments dataset, ∀ p ∈ s, isGap p = false := by
  intro s hs
  rw [getDataSegments_eq_runsFrom] at hs
  exact runsFrom_no_gap (sortByX dataset) [] (by simp) s (List.mem_of_mem_filter hs)

lemma sortByX_sorted (dataset : List Point) :
    (sortByX dataset).Pairwise (fun a b => a.x ≤ b.x) := by
  have h := @List.sorted_mergeSort Point (fun a b => decide (a.x ≤ b.x))
    (fun a b c hab hbc => by
      simp only [decide_eq_true_eq] at *
      exact le_trans hab hbc)
    (fun a b => by
      simp only [Bool.or_eq_true, decide_eq_true_eq]
      exact le_total a.x b.x)
    dataset
  exact h.imp (by simp)

/-- C1: the Segmenter's output partitions the non-gap, x-sorted points
exactly once.  Concatenating the returned segments in order yields
exactly the stable-x-sorted, gap-filtered dataset; no segment is empty;
no segment contains a gap point; and the sorted list is indeed ordered
ascending by `x`. -/
theorem segmenter_partitions_sorted_gap_free (dataset : List Point) :
    (getDataSegments dataset).flatten
        = (sortByX dataset).filter (fun p => !isGap p)
      ∧ (∀ s ∈ getDataSegments dataset, s ≠ [])
      ∧ (∀ s ∈ getDataSegments dataset, ∀ p ∈ s, isGap p = false)
      ∧ (sortByX dataset).Pairwise (fun a b => a.x ≤ b.x) :=
  ⟨getDataSegments_flatten dataset, getDataSegments_nonempty dataset,
    getDataSegments_gap_free dataset, sortByX_sorted dataset⟩

/-- C9: the Segmenter is deterministic (a pure function of its input),
and the sort is stable: two non-gap points with equal `x` appearing as
an (ordered) pair of the input appear in the same relative order in the
concatenation of the output segments. -/
theorem segmenter_deterministic_and_stable (D D' : List Point) (a b : Point)
    (hD : D = D') (hab : [a, b].Sublist D) (hx : a.x = b.x)
    (ha : isGap a = false) (hb : isGap b = false) :
    getDataSegments D = getDataSegments D'
      ∧ [a, b].Sublist (getDataSegments D).flatten := by
  subst hD
  refine ⟨rfl, ?_⟩
  rw [getDataSegments_flatten]
  have hsub : [a, b].Sublist (sortByX D) := by
    apply List.pair_sublist_mergeSort
    · intro p q r hpq hqr
      simp only [decide_eq_true_eq] at *
      exact le_trans hpq hqr
    · intro p q
      simp only [Bool.or_eq_true, decide_eq_true_eq]
      exact le_total p.x q.x
    · simp [hx]
    · exact hab
  have hfil := hsub.filter (fun p => !isGap p)
  rwa [show List.filter (fun p => !isGap p) [a, b] = [a, b] from by
    simp [List.filter_cons, ha, hb]] at hfil

/-- Witness for `segmenter_deterministic_and_stable`: two distinct
points sharing `x = 1` stay in input order in the segmented output. -/
theorem segmenter_deterministic_and_stable_witness :
    ([(⟨1, some 1, none⟩ : Point), ⟨1, some 2, none⟩]
        = [(⟨1, some 1, none⟩ : Point), ⟨1, some 2, none⟩])
      ∧ [(⟨1, some 1, none⟩ : Point), ⟨1, some 2, none⟩].Sublist
          (getDataSegments [⟨1, some 1, none⟩, ⟨1, some 2, none⟩]).flatten :=
  ⟨rfl, (segmenter_deterministic_and_stable
      [⟨1, some 1, none⟩, ⟨1, some 2, none⟩] _ _ _ rfl
      (List.Sublist.refl _) rfl rfl rfl).2⟩

/-! ## JS objects, styles, and the marker/label layout -/

/-- A JS object used as a string-keyed bag of values; an absent key
models the value `undefined`. -/
def JsObj (V : Type) := String → Option V

def emptyObj {V : Type} : JsObj V := fun _ => none

def objOf {V : Type} (l : List (String × V)) : JsObj V :=
  fun k => (l.find? (fun kv => kv.1 == k)).map (fun kv => kv.2)

def objOfOpt {V : Type} (l : List (String × Option V)) : JsObj V :=
  fun k =>
    match l.find? (fun kv => kv.1 == k) with
    | some kv => kv.2
    | none => none

/-- Embeds `Object.assign` / lodash `assign` of two objects: keys of `b` win. -/
def jsAssign2 {V : Type} (a b : JsObj V) : JsObj V :=
  fun k =>
    match b k with
    | some v => some v
    | none => a k

/-- lodash `defaults` of two objects: keys of `a` win. -/
def jsDefaults2 {V : Type} (a b : JsObj V) : JsObj V :=
  fun k =>
    match a k with
    | some v => some v
    | none => b k

/-- The first defined of two optional values. -/
def firstSome {V : Type} (a b : Option V) : Option V :=
  match a with
  | some v => some v
  | none => b

/-- A primitive style value (number or string). -/
inductive StyleVal
  | num (n : Int)
  | str (s : String)
deriving DecidableEq, Repr

/-- JS truthiness of a primitive style value: `0` and `""` are falsy. -/
def svTruthy : StyleVal → Bool
  | .num n => n ≠ 0
  | .str s => s ≠ ""

def Style := JsObj StyleVal

def emptyStyle : Style := emptyObj

/-- Embeds `o || \x7b\x7d` and lodash `defaults` treating `undefined` as `{}`. -/
def optStyle (o : Option Style) : Style := o.getD emptyStyle

/-- Embeds `defaultStyles.markers` (lines 15-17). -/
def defaultStylesMarkers : Style := objOf [("opacity", .num 1)]

/-- Embeds `defaultStyles.data` (lines 18-23). -/
def defaultStylesData : Style :=
  objOf [("strokeWidth", .num 2), ("fill", .str "none"),
         ("stroke", .str "#756f6a"), ("opacity", .num 1)]

/-- Embeds `defaultStyles.labels` (lines 24-31).  Note: no `fill` key and no
`verticalAnchor` key; there is no `defaultStyles.line` or
`defaultStyles.parent` section at all. -/
def defaultStylesLabels : Style :=
  objOf [("padding", .num 5), ("fontFamily", .str "Helvetica"),
         ("fontSize", .num 10), ("strokeWidth", .num 0),
         ("stroke", .str "transparent"), ("textAnchor", .str "start")]

/-- The caller's `style` prop (propTypes shape plus the `line` section
the code reads even though it is not declared). -/
structure UserStyle where
  parent : Option Style := none
  data : Option Style := none
  labels : Option Style := none
  markers : Option Style := none
  line : Option Style := none

/-- The object computed by `getStyles`. -/
def StylesObj := JsObj Style

/-- Embeds `getStyles(props)` (lines 34-42).  The returned object has keys
`parent`, `data`, `labels` and `line` only — no `markers` key.
`defaultStyles.parent` and `defaultStyles.line` do not exist
(`undefined`), which for lodash `defaults` is the same as `{}`. -/
def getStyles (propsStyle : Option UserStyle) : StylesObj :=
  let style := propsStyle.getD {}
  objOf [
    ("parent", jsDefaults2 (jsDefaults2
        (objOf [("width", .str "100%"), ("height", .str "auto")])
        (optStyle style.parent)) emptyStyle),
    ("data", jsDefaults2 (jsDefaults2 emptyStyle (optStyle style.data))
        defaultStylesData),
    ("labels", jsDefaults2 (jsDefaults2 emptyStyle (optStyle style.labels))
        defaultStylesLabels),
    ("line", jsDefaults2 (jsDefaults2 emptyStyle (optStyle style.line))
        emptyStyle)]

/-- victory-core `Helpers.evaluateStyle(style, datum)` evaluates
function-valued style entries against the datum and passes every other
entry through unchanged.  `StyleVal` has no function values, so on this
model it is the identity; the (possibly `undefined`) datum is unused. -/
def evaluateStyle (s : Style) (_datum : Option Point) : Style := s

/-- Embeds `getLabelStyle(style, datum)` (lines 327-334):
`fill = style.line.stroke`, `padding = style.labels.padding || 0`,
`labelStyle = defaults({}, style.labels, {fill, padding})`. -/
def getLabelStyle (style : StylesObj) (datum : Option Point) : Style :=
  let fill := optStyle (style "line") "stroke"
  let padding : StyleVal :=
    match optStyle (style "labels") "padding" with
    | some v => if svTruthy v then v else .num 0
    | none => .num 0
  let labelStyle := jsDefaults2 (jsDefaults2 emptyStyle (optStyle (style "labels")))
    (objOfOpt [("fill", fill), ("padding", some padding)])
  evaluateStyle labelStyle datum

/-- A resolved label text: `undefined`, a string, or the boolean `true`
(the latter arises from `evaluateProp(true, datum)` when the `labels`
prop is the literal `true`). -/
inductive LabelText
  | undef
  | str (s : String)
  | boolTrue
deriving DecidableEq, Repr

/-- JS truthiness of a resolved label text: `undefined` and `""` falsy. -/
def textTruthy : LabelText → Bool
  | .undef => false
  | .str s => s ≠ ""
  | .boolTrue => true

/-- The `labels` prop: absent, an array, a function of the datum, or the
literal `true`. -/
inductive LabelsProp
  | noLabels
  | arr (l : List (Option String))
  | fn (f : Point → Option String)
  | always

/-- Embeds `props.labels === true` (line 394). -/
def isAlwaysFlag : LabelsProp → Bool
  | .always => true
  | _ => false

/-- Embeds `Array.isArray(props.labels) ? props.labels[index]
: Helpers.evaluateProp(props.labels, datum)` (lines 358-359).
`evaluateProp` calls a function prop with the datum and returns any
non-function prop unchanged. -/
def evalPropsLabel : LabelsProp → Point → Nat → LabelText
  | .noLabels, _, _ => .undef
  | .arr l, _, index =>
      match l[index]? with
      | some (some s) => .str s
      | _ => .undef
  | .fn f, datum, _ =>
      match f datum with
      | some s => .str s
      | none => .undef
  | .always, _, _ => .boolTrue

/-- Embeds `getLabelText(props, datum, index)` (lines 357-361):
`datum.label || propsLabel`, where `||` uses JS truthiness, so an empty
string `datum.label` falls through to the `labels` prop. -/
def getLabelText (labels : LabelsProp) (datum : Point) (index : Nat) : LabelText :=
  match datum.label with
  | some s => if s = "" then evalPropsLabel labels datum index else .str s
  | none => evalPropsLabel labels datum index

/-- A per-element prop value. -/
inductive PropVal
  | vInt (n : Int)
  | vStr (s : String)
  | vBool (b : Bool)
  | vPoint (p : Point)
  | vStyleObj (st : Style)

def styleToProp : StyleVal → PropVal
  | .num n => .vInt n
  | .str s => .vStr s

/-- The `text` entry of the label props: an `undefined` text contributes
no value, a string or the boolean `true` is stored as-is. -/
def textToVal : LabelText → Option PropVal
  | .undef => none
  | .str s => some (.vStr s)
  | .boolTrue => some (.vBool true)

/-- Embeds `sharedProps` (lines 381-383): the computed
layout fields. -/
def sharedPropsFor (datum : Point) (index : Nat) (x y : Int) : JsObj PropVal :=
  objOf [("index", .vInt index), ("datum", .vPoint datum),
         ("x", .vInt x), ("y", .vInt y)]

/-- The first argument of the marker `assign` (line 385):
`{key: marker-index, style: Helpers.evaluateStyle(style.markers, datum)}`.
`getStyles` emits no `markers` key, so `style.markers` is `undefined`,
modelled as the empty style. -/
def markerBaseFor (style : StylesObj) (datum : Point) (index : Nat) : JsObj PropVal :=
  objOf [("key", .vStr ("marker-" ++ toString index)),
         ("style", .vStyleObj (evaluateStyle (optStyle (style "markers")) (some datum)))]

/-- Embeds `markerProps` (lines 384-389): `assign(base, sharedProps,
markerComponent.props, this.state.markersState[index])` — note the
caller's component props come AFTER the computed `sharedProps`. -/
def markerPropsFor (style : StylesObj) (datum : Point) (index : Nat) (x y : Int)
    (markerCompProps markerStateI : JsObj PropVal) : JsObj PropVal :=
  jsAssign2 (jsAssign2 (jsAssign2 (markerBaseFor style datum index)
    (sharedPropsFor datum index x y)) markerCompProps) markerStateI

/-- The object literal of lines 397-404: `{key: label-index,
dy: labelStyle.padding, textAnchor: labelStyle.textAnchor,
verticalAnchor: labelStyle.verticalAnchor || "end", style: labelStyle,
text}`. -/
def labelBaseFor (labelStyle : Style) (text : LabelText) (index : Nat) : JsObj PropVal :=
  objOfOpt [
    ("key", some (.vStr ("label-" ++ toString index))),
    ("dy", (labelStyle "padding").map styleToProp),
    ("textAnchor", (labelStyle "textAnchor").map styleToProp),
    ("verticalAnchor", some (match labelStyle "verticalAnchor" with
        | some v => if svTruthy v then styleToProp v else .vStr "end"
        | none => .vStr "end")),
    ("style", some (.vStyleObj labelStyle)),
    ("text", textToVal text)]

/-- Embeds `labelProps` (lines 396-408): `assign(base, labelComponent.props,
sharedProps, this.state.labelsState[index])` — here the computed
`sharedProps` come AFTER the caller's component props. -/
def labelPropsFor (labelStyle : Style) (text : LabelText) (datum : Point)
    (index : Nat) (x y : Int) (labelCompProps labelStateI : JsObj PropVal) :
    JsObj PropVal :=
  jsAssign2 (jsAssign2 (jsAssign2 (labelBaseFor labelStyle text index)
    labelCompProps) (sharedPropsFor datum index x y)) labelStateI

/-- One entry of the output of `renderMarkersAndLabels`: a bare marker,
or a `<g>` grouping a marker with its label. -/
inductive Rendered
  | markerOnly (markerProps : JsObj PropVal)
  | markerWithLabel (markerProps labelProps : JsObj PropVal)

def hasAttachedLabel : Rendered → Bool
  | .markerOnly _ => false
  | .markerWithLabel _ _ => true

/-- The body of the `dataset.map((datum, index) => ...)` callback of
`renderMarkersAndLabels` (lines 374-422).  A gap point maps to `none`
(the JS callback returns `undefined`, lines 375-377). -/
def renderMarkerEntry (labels : LabelsProp)
    (markerCompProps labelCompProps : JsObj PropVal)
    (markersState labelsState : Nat → JsObj PropVal)
    (scaleX : Int → Int) (scaleY : Option Int → Int) (style : StylesObj)
    (ip : Nat × Point) : Option Rendered :=
  let index := ip.1
  let datum := ip.2
  if isGap datum then none
  else
    let x := scaleX datum.x
    let y := scaleY datum.y
    let markerProps :=
      markerPropsFor style datum index x y markerCompProps (markersState index)
    let text := getLabelText labels datum index
    if textTruthy text || isAlwaysFlag labels then
      some (.markerWithLabel markerProps
        (labelPropsFor (getLabelStyle style (some datum)) text datum index x y
          labelCompProps (labelsState index)))
    else
      some (.markerOnly markerProps)

/-- Embeds `renderMarkersAndLabels(props, calculatedProps)` (lines 369-423).
Event binding (`Helpers.getEvents` / `Helpers.getPartialEvents`)
belongs to the external Event Scoper collaborator: it attaches handler
closures under the `events` key and does not alter any other prop, so
it is left out of the geometry model. -/
def renderMarkersAndLabels (labels : LabelsProp)
    (markerCompProps labelCompProps : JsObj PropVal)
    (markersState labelsState : Nat → JsObj PropVal)
    (dataset : List Point) (scaleX : Int → Int) (scaleY : Option Int → Int)
    (style : StylesObj) : List (Option Rendered) :=
  dataset.enum.map (renderMarkerEntry labels markerCompProps labelCompProps
    markersState labelsState scaleX scaleY style)

lemma scenarioA_segments :
    getDataSegments [⟨1, some 1, none⟩, ⟨2, none, none⟩, ⟨3, some 3, none⟩]
      = [[⟨1, some 1, none⟩], [⟨3, some 3, none⟩]] := by
  have hs : sortByX [⟨1, some 1, none⟩, ⟨2, none, none⟩, ⟨3, some 3, none⟩]
      = [⟨1, some 1, none⟩, ⟨2, none, none⟩, ⟨3, some 3, none⟩] :=
    List.mergeSort_of_sorted (by decide)
  simp only [getDataSegments, hs]
  decide

/-- C2: for `data = [{x:1,y:1},{x:2,y:null},{x:3,y:3}]` the Segmenter
returns exactly the two segments `[{x:1,y:1}]` and `[{x:3,y:3}]`, and in
general the marker/label step produces no element (`undefined`) for any
point whose y is null/undefined. -/
theorem gap_scenario_and_suppression (labels : LabelsProp)
    (mcp lcp : JsObj PropVal) (ms ls : Nat → JsObj PropVal)
    (dataset : List Point) (sx : Int → Int) (sy : Option Int → Int)
    (style : StylesObj) (i : Nat) (hi : i < dataset.length)
    (hgap : isGap dataset[i] = true) :
    getDataSegments [⟨1, some 1, none⟩, ⟨2, none, none⟩, ⟨3, some 3, none⟩]
        = [[⟨1, some 1, none⟩], [⟨3, some 3, none⟩]]
      ∧ (renderMarkersAndLabels labels mcp lcp ms ls dataset sx sy style)[i]?
          = some none := by
  refine ⟨scenarioA_segments, ?_⟩
  unfold renderMarkersAndLabels
  rw [List.getElem?_map, List.getElem?_enum, List.getElem?_eq_getElem hi]
  simp [renderMarkerEntry, hgap]

/-- Witness for `gap_scenario_and_suppression`: in Scenario A the gap
point at x = 2 (index 1 of the dataset) yields no marker and no label. -/
theorem gap_scenario_and_suppression_witness :
    getDataSegments [⟨1, some 1, none⟩, ⟨2, none, none⟩, ⟨3, some 3, none⟩]
        = [[⟨1, some 1, none⟩], [⟨3, some 3, none⟩]]
      ∧ (renderMarkersAndLabels .noLabels emptyObj emptyObj (fun _ => emptyObj)
          (fun _ => emptyObj)
          [⟨1, some 1, none⟩, ⟨2, none, none⟩, ⟨3, some 3, none⟩]
          (fun v => v) (fun _ => 0) (getStyles none))[1]? = some none :=
  gap_scenario_and_suppression .noLabels emptyObj emptyObj (fun _ => emptyObj)
    (fun _ => emptyObj) [⟨1, some 1, none⟩, ⟨2, none, none⟩, ⟨3, some 3, none⟩]
    (fun v => v) (fun _ => 0) (getStyles none) 1 (by decide) (by decide)

/-- C3 (amended): the merge chains as actually implemented.  Markers:
built-in base (key, computed style) < computed layout fields <
caller-supplied component defaults < stored ElementState override.
Labels: built-in base (key, computed style/text/anchors) <
caller-supplied component defaults < computed layout fields (index,
datum, scaled x/y) < stored ElementState override.  In both chains the
ElementState override for the element's index wins over everything, and
for markers a caller-supplied component default beats a computed layout
field — not the other way around. -/
theorem per_element_merge_order (style : StylesObj) (labelStyle : Style)
    (text : LabelText) (datum : Point) (index : Nat) (x y : Int)
    (mcp msI lcp lsI : JsObj PropVal) (k : String) :
    markerPropsFor style datum index x y mcp msI k
        = firstSome (msI k) (firstSome (mcp k)
            (firstSome (sharedPropsFor datum index x y k)
              (markerBaseFor style datum index k)))
      ∧ labelPropsFor labelStyle text datum index x y lcp lsI k
          = firstSome (lsI k) (firstSome (sharedPropsFor datum index x y k)
              (firstSome (lcp k) (labelBaseFor labelStyle text index k)))
      ∧ (∀ v, msI k = some v →
          markerPropsFor style datum index x y mcp msI k = some v)
      ∧ (∀ v, lsI k = some v →
          labelPropsFor labelStyle text datum index x y lcp lsI k = some v)
      ∧ (∀ v, msI k = none → mcp k = some v →
          markerPropsFor style datum index x y mcp msI k = some v) := by
  refine ⟨rfl, rfl, ?_, ?_, ?_⟩
  · intro v h
    simp [markerPropsFor, jsAssign2, h]
  · intro v h
    simp [labelPropsFor, jsAssign2, h]
  · intro v h1 h2
    simp [markerPropsFor, jsAssign2, h1, h2]

/-- Witness for `per_element_merge_order`: a stored ElementState entry
for key `style` overrides every other source of that key. -/
theorem per_element_merge_order_witness :
    objOf [("style", PropVal.vInt 7)] "style" = some (PropVal.vInt 7)
      ∧ markerPropsFor (getStyles none) ⟨1, some 1, none⟩ 0 10 20 emptyObj
          (objOf [("style", PropVal.vInt 7)]) "style" = some (PropVal.vInt 7) :=
  ⟨rfl, (per_element_merge_order (getStyles none) emptyStyle .undef
      ⟨1, some 1, none⟩ 0 10 20 emptyObj (objOf [("style", PropVal.vInt 7)])
      emptyObj emptyObj "style").2.2.1 (PropVal.vInt 7) rfl⟩

/-- Counterexample to C3 as stated: a caller-supplied marker component
default for the key `x` (999) overrides the computed scaled x (10),
because `markerComponent.props` is assigned AFTER `sharedProps` in the
marker merge (lines 384-389). -/
theorem per_element_merge_order_counterexample :
    markerPropsFor (getStyles none) ⟨1, some 1, none⟩ 0 10 20
        (objOf [("x", PropVal.vInt 999)]) emptyObj "x" = some (.vInt 999)
      ∧ sharedPropsFor ⟨1, some 1, none⟩ 0 10 20 "x" = some (.vInt 10)
      ∧ PropVal.vInt 999 ≠ PropVal.vInt 10 := by
  refine ⟨rfl, rfl, ?_⟩
  intro h
  have := PropVal.vInt.inj h
  omega

/-- C7 (code evaluation): with no caller-supplied style, the data line
is drawn with stroke `#756f6a`, the label's vertical anchor defaults to
`"end"`, but the computed label style has NO fill at all:
`getLabelStyle` falls back to `style.line.stroke` (line 330), and
`getStyles` gives the undeclared `line` section no default, so the
fallback is `undefined` rather than the data line's stroke — despite
the code's own comment "match label color to data color if it is not
given". -/
theorem label_fill_fallback_is_undefined :
    optStyle ((getStyles none) "data") "stroke" = some (.str "#756f6a")
      ∧ getLabelStyle (getStyles none) (some ⟨1, some 1, none⟩) "fill" = none
      ∧ labelBaseFor (getLabelStyle (getStyles none) none) .undef 0 "verticalAnchor"
          = some (.vStr "end") :=
  ⟨rfl, rfl, rfl⟩

/-- C8 (amended): the label text is the point's own `label` field when
that field is a truthy (non-empty) string; otherwise it is the `labels`
prop evaluated (as a function of the point, or looked up at the point's
index when the prop is an array); and a non-gap point renders with an
attached label exactly when the resolved text is truthy or the global
`labels === true` flag is set. -/
theorem label_text_resolution (labels : LabelsProp) (datum : Point) (index : Nat)
    (mcp lcp : JsObj PropVal) (ms ls : Nat → JsObj PropVal)
    (dataset : List Point) (sx : Int → Int) (sy : Option Int → Int)
    (style : StylesObj) (i : Nat) (hi : i < dataset.length)
    (hng : isGap dataset[i] = false) :
    (∀ s, datum.label = some s → s ≠ "" → getLabelText labels datum index = .str s)
      ∧ (datum.label = none ∨ datum.label = some "" →
          getLabelText labels datum index = evalPropsLabel labels datum index)
      ∧ ((renderMarkersAndLabels labels mcp lcp ms ls dataset sx sy style)[i]?).map
            (Option.map hasAttachedLabel)
          = some (some (textTruthy (getLabelText labels dataset[i] i)
              || isAlwaysFlag labels)) := by
  refine ⟨?_, ?_, ?_⟩
  · intro s hl hne
    simp [getLabelText, hl, hne]
  · intro h
    rcases h with h | h <;> simp [getLabelText, h]
  · unfold renderMarkersAndLabels
    rw [List.getElem?_map, List.getElem?_enum, List.getElem?_eq_getElem hi]
    simp only [Option.map_some']
    by_cases hc : (textTruthy (getLabelText labels dataset[i] i)
        || isAlwaysFlag labels) = true
    · rw [show renderMarkerEntry labels mcp lcp ms ls sx sy style (i, dataset[i])
            = some (.markerWithLabel
                (markerPropsFor style dataset[i] i (sx dataset[i].x)
                  (sy dataset[i].y) mcp (ms i))
                (labelPropsFor (getLabelStyle style (some dataset[i]))
                  (getLabelText labels dataset[i] i) dataset[i] i
                  (sx dataset[i].x) (sy dataset[i].y) lcp (ls i))) from by
          simp [renderMarkerEntry, hng, hc]]
      simp [hasAttachedLabel, hc]
    · rw [Bool.not_eq_true] at hc
      rw [show renderMarkerEntry labels mcp lcp ms ls sx sy style (i, dataset[i])
            = some (.markerOnly
                (markerPropsFor style dataset[i] i (sx dataset[i].x)
                  (sy dataset[i].y) mcp (ms i))) from by
          simp [renderMarkerEntry, hng, hc]]
      simp [hasAttachedLabel, hc]

/-- Witness for `label_text_resolution`: a truthy own label wins, and a
point whose text resolves from the `labels` array renders with an
attached label. -/
theorem label_text_resolution_witness :
    getLabelText .noLabels ⟨1, some 1, some "L"⟩ 0 = .str "L"
      ∧ ((renderMarkersAndLabels (.arr [some "B"]) emptyObj emptyObj
            (fun _ => emptyObj) (fun _ => emptyObj) [⟨1, some 1, none⟩]
            (fun v => v) (fun _ => 0) (getStyles none))[0]?).map
          (Option.map hasAttachedLabel)
        = some (some (textTruthy (getLabelText (.arr [some "B"])
              (⟨1, some 1, none⟩ : Point) 0)
            || isAlwaysFlag (.arr [some "B"]))) :=
  ⟨(label_text_resolution .noLabels ⟨1, some 1, some "L"⟩ 0 emptyObj emptyObj
      (fun _ => emptyObj) (fun _ => emptyObj) [⟨1, some 1, none⟩] (fun v => v)
      (fun _ => 0) (getStyles none) 0 (by decide) (by decide)).1 "L" rfl
      (by decide),
   (label_text_resolution (.arr [some "B"]) ⟨1, some 1, none⟩ 0 emptyObj emptyObj
      (fun _ => emptyObj) (fun _ => emptyObj) [⟨1, some 1, none⟩] (fun v => v)
      (fun _ => 0) (getStyles none) 0 (by decide) (by decide)).2.2⟩

/-- Counterexample to C8 as stated: a present-but-empty own label
(`label: ""`) does NOT become the label text; JS truthiness makes
`datum.label || propsLabel` fall through to the `labels` array. -/
theorem label_text_truthiness_counterexample :
    getLabelText (.arr [some "B"]) ⟨1, some 1, some ""⟩ 0 = .str "B"
      ∧ LabelText.str "B" ≠ LabelText.str "" :=
  ⟨rfl, by decide⟩

/-! ## Series label, full render pass, and the animation bridge -/

/-- The props of the trailing `LineLabel` (lines 434-444). -/
structure SeriesLabelProps where
  data : List Point
  x : Int
  y : Int
  label : String
  style : Style

/-- Embeds `renderSeriesLabel(props, calculatedProps)` (lines 425-445).
`!props.seriesLabel` is truthy for an absent or empty-string label, in
which case the method returns `undefined`.  Otherwise
`dataSegments[dataSegments.length - 1]` is `undefined` when there are
no segments, the `Array.isArray(lastSegment)` test then fails so
`lastPoint` is that same `undefined`, and `scale.x.call(this,
lastPoint.x)` (line 439) throws a `TypeError`, modelled as
`Except.error`. -/
def renderSeriesLabel (seriesLabel : Option String) (dataset : List Point)
    (dataSegments : List (List Point)) (scaleX : Int → Int)
    (scaleY : Option Int → Int) (style : StylesObj) :
    Except String (Option SeriesLabelProps) :=
  match seriesLabel with
  | none => .ok none
  | some s =>
      if s = "" then .ok none
      else
        let lastSegment := dataSegments[dataSegments.length - 1]?
        let lastPoint : Option Point :=
          match lastSegment with
          | some seg => seg[seg.length - 1]?
          | none => none
        match lastPoint with
        | none => .error "TypeError: Cannot read property of undefined"
        | some p =>
            .ok (some { data := dataset, x := scaleX p.x, y := scaleY p.y,
                        label := s, style := getLabelStyle style none })

/-- C4 fails on the code: with a seriesLabel set and a well-typed data
array in which every point's y is null, `getDataSegments` returns no
segments, `lastPoint` is `undefined`, and `renderSeriesLabel` throws a
TypeError reading `lastPoint.x` — rendering does not complete. -/
theorem seriesLabel_crash_on_all_gap_data :
    getDataSegments [⟨1, none, none⟩, ⟨2, none, none⟩] = []
      ∧ renderSeriesLabel (some "series") [⟨1, none, none⟩, ⟨2, none, none⟩]
          (getDataSegments [⟨1, none, none⟩, ⟨2, none, none⟩])
          (fun v => v) (fun _ => 0) (getStyles none)
        = .error "TypeError: Cannot read property of undefined" := by
  have hseg : getDataSegments [⟨1, none, none⟩, ⟨2, none, none⟩] = [] := by
    have hs : sortByX [⟨1, none, none⟩, ⟨2, none, none⟩]
        = [⟨1, none, none⟩, ⟨2, none, none⟩] :=
      List.mergeSort_of_sorted (by decide)
    simp only [getDataSegments, hs]
    decide
  refine ⟨hseg, ?_⟩
  rw [hseg]
  rfl

/-- Embeds `renderLine(props, calculatedProps)` (lines 336-355): one
`LineSegment` element per data segment, drawn with `style.data`; the
attached events come from the external Event Scoper and are not part of
the geometry. -/
structure LineSegmentProps where
  key : String
  interpolation : String
  style : Style
  index : Nat
  data : List Point

def renderLine (interpolation : String) (style : StylesObj)
    (dataSegments : List (List Point)) : List LineSegmentProps :=
  dataSegments.enum.map (fun ip =>
    { key := "line-segment-" ++ toString ip.1
      interpolation := interpolation
      style := optStyle (style "data")
      index := ip.1
      data := ip.2 })

/-- The props of the component that this pipeline reads.  `animate` is
an object prop in JS; only its truthiness drives `render`, so it is
modelled as a `Bool`. -/
structure LineProps where
  data : List Point := []
  labels : LabelsProp := .noLabels
  seriesLabel : Option String := none
  interpolation : String := "linear"
  markerCompProps : JsObj PropVal := emptyObj
  labelCompProps : JsObj PropVal := emptyObj
  style : Option UserStyle := none
  animate : Bool := false
  standalone : Bool := true

/-- Modelled from the spec: the repository modules `helpers/data`
(Dataset Builder, spec §4.2), `helpers/domain` (Domain Calculator,
§4.3) and `helpers/scale` together with victory-core
`Helpers.getRange` (Scale Builder, §4.4) are imported by
victory-line.jsx but are not part of the provided source.  Per spec §5
every pipeline stage is a pure function executed to completion within
one render pass, so they are modelled as an arbitrary bundle of pure
functions consumed by `renderData`. -/
structure ExternalHelpers where
  getData : LineProps → List Point
  getRangeX : LineProps → Int × Int
  getRangeY : LineProps → Int × Int
  getDomainX : LineProps → Int × Int
  getDomainY : LineProps → Int × Int
  baseScaleX : LineProps → Int × Int → Int × Int → (Int → Int)
  baseScaleY : LineProps → Int × Int → Int × Int → (Option Int → Int)

/-- The per-index element state created in `componentWillMount`
(lines 303-309) and updated only by event-handler results. -/
structure ElementState where
  dataState : Nat → JsObj PropVal := fun _ => emptyObj
  markersState : Nat → JsObj PropVal := fun _ => emptyObj
  labelsState : Nat → JsObj PropVal := fun _ => emptyObj

/-- The geometry produced by one `renderData` pass (lines 447-470). -/
structure Geometry where
  lineSegments : List LineSegmentProps
  markers : List (Option Rendered)
  seriesLabelOut : Except String (Option SeriesLabelProps)

/-- Embeds `renderData(props, style)` (lines 447-470). -/
def renderData (H : ExternalHelpers) (props : LineProps) (state : ElementState)
    (style : StylesObj) : Geometry :=
  let dataset := H.getData props
  let dataSegments := getDataSegments dataset
  let scaleX := H.baseScaleX props (H.getDomainX props) (H.getRangeX props)
  let scaleY := H.baseScaleY props (H.getDomainY props) (H.getRangeY props)
  { lineSegments := renderLine props.interpolation style dataSegments
    markers := renderMarkersAndLabels props.labels props.markerCompProps
      props.labelCompProps state.markersState state.labelsState dataset
      scaleX scaleY style
    seriesLabelOut := renderSeriesLabel props.seriesLabel dataset dataSegments
      scaleX scaleY style }

/-- C5: rendering is idempotent and deterministic — given identical
props, identical ElementState, identical computed styles and the same
pure external helpers, two render passes produce identical geometry. -/
theorem render_idempotent_deterministic (H : ExternalHelpers)
    (p₁ p₂ : LineProps) (s₁ s₂ : ElementState) (st₁ st₂ : StylesObj)
    (hp : p₁ = p₂) (hs : s₁ = s₂) (hst : st₁ = st₂) :
    renderData H p₁ s₁ st₁ = renderData H p₂ s₂ st₂ := by
  subst hp
  subst hs
  subst hst
  rfl

/-- A concrete helper bundle for witnesses: the raw data is used as the
dataset and both scales are the identity on values. -/
def trivialHelpers : ExternalHelpers where
  getData := fun p => p.data
  getRangeX := fun _ => (0, 100)
  getRangeY := fun _ => (0, 100)
  getDomainX := fun _ => (0, 10)
  getDomainY := fun _ => (0, 10)
  baseScaleX := fun _ _ _ v => v
  baseScaleY := fun _ _ _ v => v.getD 0

/-- Witness for `render_idempotent_deterministic` at a concrete input. -/
theorem render_idempotent_deterministic_witness :
    ({ data := [⟨1, some 1, none⟩] } : LineProps)
        = { data := [⟨1, some 1, none⟩] }
      ∧ renderData trivialHelpers { data := [⟨1, some 1, none⟩] } {}
            (getStyles none)
          = renderData trivialHelpers { data := [⟨1, some 1, none⟩] } {}
            (getStyles none) :=
  ⟨rfl, render_idempotent_deterministic trivialHelpers
    { data := [⟨1, some 1, none⟩] } { data := [⟨1, some 1, none⟩] } {} {}
    (getStyles none) (getStyles none) rfl rfl rfl⟩

/-- The `animationWhitelist` handed to `VictoryTransition` (lines
481-483). -/
def animationWhitelist : List String :=
  ["data", "domain", "height", "padding", "samples", "style", "width", "x", "y"]

/-- The element returned by `render()` (lines 472-501): when `animate`
is truthy, a `VictoryTransition` wrapper around a child `VictoryLine`
receiving `{...this.props}`; otherwise the chart itself, as a
standalone `<svg>` or a composable `<g>`. -/
inductive RenderOutput
  | transitionWrapper (whitelist : List String) (childProps : LineProps)
  | svgRoot (geometry : Geometry)
  | gRoot (geometry : Geometry)

/-- Embeds `render()` (lines 472-501). -/
def render (H : ExternalHelpers) (props : LineProps) (state : ElementState) :
    RenderOutput :=
  if props.animate then
    .transitionWrapper animationWhitelist props
  else
    let style := getStyles props.style
    if props.standalone then .svgRoot (renderData H props state style)
    else .gRoot (renderData H props state style)

/-- A partial props object produced by a transition hook; only a `y`
override occurs (`{y: null}` / `{y: datum.y}`). -/
structure YDelta where
  y : Option Int
deriving DecidableEq, Repr

/-- Embeds `defaultTransitions.onExit` (lines 48-51).  The JS `before` hook
takes no argument and returns `{y: null}`; it is modelled as a constant
function of the datum. -/
structure TransitionPhase where
  duration : Nat
  before : Point → YDelta

/-- Embeds `defaultTransitions.onEnter` (lines 52-56). -/
structure EnterPhase where
  duration : Nat
  before : Point → YDelta
  after : Point → YDelta

def defaultTransitionsOnExit : TransitionPhase :=
  { duration := 500, before := fun _ => { y := none } }

def defaultTransitionsOnEnter : EnterPhase :=
  { duration := 500, before := fun _ => { y := none },
    after := fun datum => { y := datum.y } }

/-- C6: when `animate` is set, `render` delegates to the transition
wrapper with the whitelist being exactly {data, domain, height,
padding, samples, style, width, x, y}; the default exit transition
forces y to null at exit start (making the departing point a gap), the
default enter transition forces y to null before and restores the
datum's y after; and a render pass whose `animate` prop is cleared
never produces the transition wrapper. -/
theorem animation_bridge (H : ExternalHelpers) (props : LineProps)
    (state : ElementState) (datum : Point) :
    (props.animate = true →
        render H props state = .transitionWrapper
          ["data", "domain", "height", "padding", "samples", "style",
           "width", "x", "y"] props)
      ∧ (props.animate = false →
          ∀ wl cp, render H props state ≠ .transitionWrapper wl cp)
      ∧ defaultTransitionsOnExit.before datum = { y := none }
      ∧ defaultTransitionsOnEnter.before datum = { y := none }
      ∧ defaultTransitionsOnEnter.after datum = { y := datum.y } := by
  refine ⟨?_, ?_, rfl, rfl, rfl⟩
  · intro h
    simp [render, h, animationWhitelist]
  · intro h wl cp hcontra
    simp only [render, h, Bool.false_eq_true, if_false] at hcontra
    split at hcontra <;> simp at hcontra

/-- Witness for `animation_bridge` at a concrete animated input. -/
theorem animation_bridge_witness :
    ({ animate := true } : LineProps).animate = true
      ∧ render trivialHelpers { animate := true } {}
          = .transitionWrapper
              ["data", "domain", "height", "padding", "samples", "style",
               "width", "x", "y"] { animate := true }
      ∧ defaultTransitionsOnEnter.after ⟨1, some 5, none⟩ = { y := some 5 } :=
  ⟨rfl,
   (animation_bridge trivialHelpers { animate := true } {} ⟨1, some 5, none⟩).1 rfl,
   (animation_bridge trivialHelpers { animate := true } {} ⟨1, some 5, none⟩).2.2.2.2⟩

/-! ## C10: the Segmenter does not mutate its input

JS arrays are heap references, so the frame property is stated over an
explicit store of arrays: a reference is an index into the store,
lodash `sortBy` allocates a fresh sorted array (it never mutates its
argument), and every `Array.prototype.slice` allocates a fresh array;
`segments` itself is a local array of references. -/

abbrev Store := List (List Point)

/-- Read the array at reference `r`. -/
def readArr (st : Store) (r : Nat) : List Point := (st[r]?).getD []

/-- Allocate a fresh array: the extended store and the new reference. -/
def alloc (st : Store) (v : List Point) : Store × Nat := (st ++ [v], st.length)

/-- Allocate a list of fresh arrays in order. -/
def allocAll (st : Store) : List (List Point) → Store × List Nat
  | [] => (st, [])
  | s :: rest =>
      let a := alloc st s
      let r := allocAll a.1 rest
      (r.1, a.2 :: r.2)

/-- Runs `getDataSegments` with explicit allocation: the sorted copy and
every slice are fresh arrays; the input array at `r` is only read. -/
def getDataSegmentsSt (st : Store) (r : Nat) : Store × List Nat :=
  let dataset := readArr st r
  let a := alloc st (sortByX dataset)
  let orderedData := readArr a.1 a.2
  let scan := orderedData.enum.foldl (segStep orderedData) ([], 0)
  let segments := scan.1 ++ [jsSlice orderedData scan.2 orderedData.length]
  allocAll a.1 (segments.filter (fun segment => segment.length > 0))

lemma allocAll_fst (l : List (List Point)) :
    ∀ st, (allocAll st l).1 = st ++ l := by
  induction l with
  | nil => intro st; simp [allocAll]
  | cons s rest ih =>
      intro st
      simp [allocAll, alloc, ih (st ++ [s])]

lemma allocAll_read (l : List (List Point)) :
    ∀ st, (allocAll st l).2.map (readArr (allocAll st l).1) = l := by
  induction l with
  | nil => intro st; simp [allocAll]
  | cons s rest ih =>
      intro st
      simp only [allocAll, alloc, List.map_cons]
      congr 1
      · rw [allocAll_fst rest (st ++ [s])]
        unfold readArr
        rw [List.append_assoc, List.getElem?_append_right (Nat.le_refl _)]
        simp
      · exact ih (st ++ [s])

lemma allocAll_fresh (l : List (List Point)) :
    ∀ st, ∀ q ∈ (allocAll st l).2, st.length ≤ q := by
  induction l with
  | nil => intro st q hq; simp [allocAll] at hq
  | cons s rest ih =>
      intro st q hq
      simp only [allocAll, alloc, List.mem_cons] at hq
      rcases hq with h | h
      · exact h ▸ Nat.le_refl _
      · have := ih (st ++ [s]) q h
        simp only [List.length_append, List.length_cons, List.length_nil] at this
        omega

lemma readArr_last (st : Store) (v : List Point) :
    readArr (st ++ [v]) st.length = v := by
  unfold readArr
  rw [List.getElem?_append_right (Nat.le_refl _)]
  simp

lemma getDataSegmentsSt_eq (st : Store) (r : Nat) :
    getDataSegmentsSt st r
      = allocAll (st ++ [sortByX (readArr st r)])
          (getDataSegments (readArr st r)) := by
  simp only [getDataSegmentsSt, alloc, readArr_last, getDataSegments, List.enum]

/-- C10: the Segmenter never mutates its input.  Over an explicit array
store, every pre-existing array (the input dataset included) is
unchanged after the call, the returned segment references are all
freshly allocated (past the end of the original store), and reading
them back yields exactly the pure `getDataSegments` of the input
array's contents. -/
theorem segmenter_does_not_mutate_input (st : Store) (r j : Nat)
    (hj : j < st.length) :
    ((getDataSegmentsSt st r).1)[j]? = st[j]?
      ∧ (getDataSegmentsSt st r).2.map (readArr (getDataSegmentsSt st r).1)
          = getDataSegments (readArr st r)
      ∧ (∀ q ∈ (getDataSegmentsSt st r).2, st.length ≤ q) := by
  rw [getDataSegmentsSt_eq]
  refine ⟨?_, allocAll_read _ _, ?_⟩
  · rw [allocAll_fst]
    rw [List.append_assoc, List.getElem?_append_left hj]
  · intro q hq
    have := allocAll_fresh (getDataSegments (readArr st r))
      (st ++ [sortByX (readArr st r)]) q hq
    simp only [List.length_append, List.length_cons, List.length_nil] at this
    omega

/-- Witness for `segmenter_does_not_mutate_input` on a one-array
store. -/
theorem segmenter_does_not_mutate_input_witness :
    (0 : Nat) < ([[⟨1, some 1, none⟩]] : Store).length
      ∧ ((getDataSegmentsSt [[⟨1, some 1, none⟩]] 0).1)[0]?
          = ([[⟨1, some 1, none⟩]] : Store)[0]? :=
  ⟨by decide,
   (segmenter_does_not_mutate_input [[⟨1, some 1, none⟩]] 0 0 (by decide)).1⟩
